import Mathlib

/-!
Verification development for the syndicate-backend Intent Coordination Engine.

The definitions below are a shallow embedding of the repository's JavaScript
source:

* `IntentStatus`, `TxType`, `TxStatus`, `IntentRow`, `TransactionRow` embed the
  Sequelize models in `src/models/intent.js` and `src/models/transaction.js`
  (decimal amounts are `DataTypes.STRING`, hence `String` here).
* `Store` with `createIntent` / `findIntentById` / `updateIntentStatus` /
  `createTransaction` / `updateTransactionStatusWhere` embeds the database
  operations actually used by the engine (unique constraint on `intentId`,
  auto-increment surrogate keys, `update` with a `where` clause).
* `processLensChainIntent` and `monitorCrossChainOperation` embed the two event
  handlers of `src/services/intent-processor.js` (lines 159-282).  External
  I/O results (the on-chain `executedIntents` flag, the `getIntent` details,
  the Across `getDepositStatus` answer) are passed in as explicit arguments;
  a `setTimeout` reschedule is returned as `some delayMs`.
* `EngineState` / `engineStep` / `engineRun` give the event-driven execution
  model: a store plus the multiset of outstanding poll timers.
* `updateIntent` embeds the privileged controller endpoint
  (`src/unnamed/part_005`, the intent controller, lines 164-193).
* `loadConfig`, `processorConfig`, `databaseUrlConfig` embed `src/config.js`,
  the example config of `src/contracts/intent/OffChainProcessor.js`
  (lines 284-298) and `src/database/config.js`.
-/

namespace Syndicate

/-- `Intent.status` enum of `src/models/intent.js`. -/
inductive IntentStatus where
  | PENDING
  | EXECUTING
  | COMPLETED
  | FAILED
deriving DecidableEq, Repr

/-- `Transaction.type` enum of `src/models/transaction.js`. -/
inductive TxType where
  | APPROVAL
  | INTENT_SUBMISSION
  | BRIDGE
  | TICKET_PURCHASE
deriving DecidableEq, Repr

/-- `Transaction.status` enum of `src/models/transaction.js`. -/
inductive TxStatus where
  | PENDING
  | CONFIRMED
  | FAILED
deriving DecidableEq, Repr

/-- The `metadata` JSON column: the engine writes `{gasPrice, encodedData}`
(`intent-processor.js` lines 187-190), the API controller stores the opaque
client-supplied object (`part_005` line 67). -/
inductive Metadata where
  | engineMeta (gasPrice : Option String) (encodedData : Option String)
  | clientMeta (raw : List (String × String))
deriving DecidableEq, Repr

/-- A persisted row of the `intents` table (`src/models/intent.js`).
`amount` and `deadline` are `DataTypes.STRING`/stringified, matching the
model's comment "Using STRING for BigInt compatibility". -/
structure IntentRow where
  id : Nat
  intentId : String
  user : String
  intentType : Nat
  syndicateAddress : String
  amount : String
  tokenAddress : String
  sourceChainId : Nat
  destinationChainId : Nat
  useOptimalRoute : Bool
  maxFeePercentage : Nat
  deadline : String
  status : IntentStatus
  metadata : Metadata
deriving DecidableEq, Repr

/-- A persisted row of the `transactions` table (`src/models/transaction.js`).
`intentId` is the *surrogate* integer key of the owning intent
(`DataTypes.INTEGER`), not the bytes32 hash.  `gasUsed`/`gasFee` are
`DataTypes.STRING`. -/
structure TransactionRow where
  id : Nat
  intentId : Nat
  chainId : Nat
  txHash : String
  type : TxType
  status : TxStatus
  blockNumber : Option Nat
  gasUsed : Option String
  gasFee : Option String
deriving DecidableEq, Repr

/-- The durable record store: the two tables plus the auto-increment
counters for the surrogate primary keys. -/
structure Store where
  intents : List IntentRow
  transactions : List TransactionRow
  nextIntentPk : Nat
  nextTxPk : Nat
deriving DecidableEq, Repr

/-- Field values passed to `db.Intent.create` (everything except the
auto-assigned surrogate `id`). -/
structure IntentFields where
  intentId : String
  user : String
  intentType : Nat
  syndicateAddress : String
  amount : String
  tokenAddress : String
  sourceChainId : Nat
  destinationChainId : Nat
  useOptimalRoute : Bool
  maxFeePercentage : Nat
  deadline : String
  status : IntentStatus
  metadata : Metadata
deriving DecidableEq, Repr

/-- Field values passed to `db.Transaction.create` by the engine
(`intent-processor.js` lines 233-239); `blockNumber`, `gasUsed`, `gasFee`
are not supplied there and default to NULL. -/
structure TransactionFields where
  intentId : Nat
  chainId : Nat
  txHash : String
  type : TxType
  status : TxStatus
deriving DecidableEq, Repr

/-- `db.Intent.findOne({ where: { intentId } })`. -/
def Store.findIntentById (s : Store) (intentId : String) : Option IntentRow :=
  s.intents.find? (fun r => r.intentId = intentId)

/-- The row materialized by `db.Intent.create` from the supplied field
values, with `pk` the auto-assigned surrogate key. -/
def IntentFields.toRow (f : IntentFields) (pk : Nat) : IntentRow :=
  { id := pk
    intentId := f.intentId
    user := f.user
    intentType := f.intentType
    syndicateAddress := f.syndicateAddress
    amount := f.amount
    tokenAddress := f.tokenAddress
    sourceChainId := f.sourceChainId
    destinationChainId := f.destinationChainId
    useOptimalRoute := f.useOptimalRoute
    maxFeePercentage := f.maxFeePercentage
    deadline := f.deadline
    status := f.status
    metadata := f.metadata }

/-- The store after a successful insert of `f` into the `intents` table. -/
def Store.appendIntent (s : Store) (f : IntentFields) : Store :=
  { s with intents := s.intents ++ [f.toRow s.nextIntentPk],
           nextIntentPk := s.nextIntentPk + 1 }

/-- `db.Intent.create(fields)`: the `intentId` column is declared
`unique: true`, so the insert throws (modelled as `none`) when a row with the
same `intentId` already exists; otherwise the row is appended with the next
auto-increment key. -/
def Store.createIntent (s : Store) (f : IntentFields) : Option (Store × IntentRow) :=
  match s.findIntentById f.intentId with
  | some _ => none
  | none => some (s.appendIntent f, f.toRow s.nextIntentPk)

/-- `intent.update({ status })`: row-level update of the `status` column,
addressed by the surrogate primary key. -/
def Store.updateIntentStatus (s : Store) (pk : Nat) (st : IntentStatus) : Store :=
  { s with intents := s.intents.map (fun r => if r.id = pk then { r with status := st } else r) }

/-- The row materialized by `db.Transaction.create`; `blockNumber`,
`gasUsed`, `gasFee` are not supplied by the engine and default to NULL. -/
def TransactionFields.toTxRow (f : TransactionFields) (pk : Nat) : TransactionRow :=
  { id := pk
    intentId := f.intentId
    chainId := f.chainId
    txHash := f.txHash
    type := f.type
    status := f.status
    blockNumber := none
    gasUsed := none
    gasFee := none }

/-- `db.Transaction.create(fields)`: append with the next auto-increment key
(no uniqueness constraint on the `transactions` table). -/
def Store.createTransaction (s : Store) (f : TransactionFields) : Store × TransactionRow :=
  ({ s with transactions := s.transactions ++ [f.toTxRow s.nextTxPk],
            nextTxPk := s.nextTxPk + 1 },
   f.toTxRow s.nextTxPk)

/-- `db.Transaction.update({ status }, { where: { intentId, type } })`
(`intent-processor.js` lines 251-254): updates *every* row matching the
`where` clause. -/
def Store.updateTransactionStatusWhere (s : Store) (pk : Nat) (ty : TxType)
    (st : TxStatus) : Store :=
  { s with
    transactions := s.transactions.map
      (fun t => if t.intentId = pk ∧ t.type = ty then { t with status := st } else t) }

/-- Result of the read-only `intentResolver.getIntent(intentId)` call
(on-chain numbers are arbitrary-precision in the model). -/
structure IntentDetails where
  syndicateAddress : String
  amount : Nat
  tokenAddress : String
  sourceChain : Nat
  destinationChain : Nat
  useOptimalRoute : Bool
  maxFeePercentage : Nat
  deadline : Nat
  gasPrice : Option Nat
  encodedData : Option String
deriving DecidableEq, Repr

/-- The exact field object passed to `db.Intent.create` by
`processLensChainIntent` (`intent-processor.js` lines 174-191):
`amount` and `deadline` are stringified with `.toString()`, the status is
the literal `"PENDING"`, and the metadata holds the optional gas price and
encoded data. -/
def submittedIntentFields (intentId user : String) (intentType : Nat)
    (d : IntentDetails) : IntentFields :=
  { intentId := intentId
    user := user
    intentType := intentType
    syndicateAddress := d.syndicateAddress
    amount := toString d.amount
    tokenAddress := d.tokenAddress
    sourceChainId := d.sourceChain
    destinationChainId := d.destinationChain
    useOptimalRoute := d.useOptimalRoute
    maxFeePercentage := d.maxFeePercentage
    deadline := toString d.deadline
    status := .PENDING
    metadata := .engineMeta (d.gasPrice.map toString) d.encodedData }

/-- Observable outcome of one `processLensChainIntent` invocation. -/
inductive SubmitOutcome where
  /-- `executedIntents(intentId)` returned true: the handler returns early
  without touching the store. -/
  | ignoredExecuted
  /-- A new row was persisted. -/
  | created
  /-- `db.Intent.create` threw (unique `intentId` constraint); the error is
  logged and rethrown to the listener wrapper, the store is untouched.  The
  handler *did* reprocess: it re-fetched the on-chain details before the
  insert failed. -/
  | duplicateError
deriving DecidableEq, Repr

/-- `IntentProcessor.processLensChainIntent` (`intent-processor.js` lines
159-210).  `isExecuted` is the answer of the on-chain
`executedIntents(intentId)` read, `d` the answer of `getIntent(intentId)`.
The row is persisted with status PENDING and then, for cross-chain intents
only, updated to EXECUTING. -/
def processLensChainIntent (s : Store) (intentId user : String) (intentType : Nat)
    (isExecuted : Bool) (d : IntentDetails) : Store × SubmitOutcome :=
  if isExecuted then
    (s, .ignoredExecuted)
  else
    match s.createIntent (submittedIntentFields intentId user intentType d) with
    | none => (s, .duplicateError)
    | some (s1, row) =>
      if d.sourceChain ≠ d.destinationChain then
        (s1.updateIntentStatus row.id .EXECUTING, .created)
      else
        (s1, .created)

/-- Result of `this.across.getDepositStatus(intentId)`: either a status
string or a thrown (network/API) error. -/
inductive PollResult where
  | ok (status : String)
  | err
deriving DecidableEq, Repr

/-- `IntentProcessor.monitorCrossChainOperation` (`intent-processor.js` lines
218-282), one invocation.  Returns the new store plus `some delayMs` when the
code reaches a `setTimeout` reschedule (60000 ms when the status is anything
other than `"RELAYED"`, 300000 ms when the status query throws), and `none`
when no further poll is scheduled (intent missing, or relay confirmed). -/
def monitorCrossChainOperation (s : Store) (intentId : String)
    (sourceChain destinationChain : Nat) (poll : PollResult) : Store × Option Nat :=
  match s.findIntentById intentId with
  | none =>
    -- `logger.error(...); return;` — no Transaction row, no reschedule
    (s, none)
  | some intent =>
    let created := s.createTransaction
      { intentId := intent.id
        chainId := sourceChain
        txHash := "0x" ++ intentId  -- placeholder until the real tx hash is known
        type := .BRIDGE
        status := .PENDING }
    let s1 := created.1
    match poll with
    | .ok depositStatus =>
      if depositStatus = "RELAYED" then
        let s2 := s1.updateTransactionStatusWhere intent.id .BRIDGE .CONFIRMED
        let s3 := s2.updateIntentStatus intent.id .COMPLETED
        (s3, none)
      else
        (s1, some 60000)
    | .err =>
      (s1, some 300000)

/-- One outstanding `setTimeout` of the bridge-poll loop: the closure captures
the event's `intentId`, `sourceChain`, `destinationChain`; `delayMs` is the
delay it was scheduled with. -/
structure TimerEntry where
  intentId : String
  sourceChain : Nat
  destinationChain : Nat
  delayMs : Nat
deriving DecidableEq, Repr

/-- Engine runtime state: the durable store plus the outstanding poll timers. -/
structure EngineState where
  store : Store
  timers : List TimerEntry
deriving DecidableEq, Repr

/-- One asynchronous stimulus handled by the engine, with the answers of the
external calls its handler performs passed alongside. -/
inductive EngineEvent where
  /-- An `IntentSubmitted(intentId, user, intentType)` delivery. -/
  | intentSubmitted (intentId user : String) (intentType : Nat)
      (isExecuted : Bool) (d : IntentDetails)
  /-- A `CrossChainOperationInitiated(intentId, sourceChain, destinationChain)`
  delivery. -/
  | crossChainInitiated (intentId : String) (sourceChain destinationChain : Nat)
      (poll : PollResult)
  /-- The `idx`-th outstanding timer fires and re-invokes
  `monitorCrossChainOperation` with its captured arguments. -/
  | timerFired (idx : Nat) (poll : PollResult)
  /-- A `WinningTicketDetected(ticketId, amount)` delivery;
  `processWinningTicket` performs no store mutation at all
  (`intent-processor.js` lines 289-313). -/
  | winningTicketDetected (ticketId amount : Nat) (syndicate : String)
deriving DecidableEq, Repr

/-- Append the reschedule (if any) produced by one
`monitorCrossChainOperation` invocation to the outstanding-timer list. -/
def appendTimer (timers : List TimerEntry) (intentId : String)
    (sourceChain destinationChain : Nat) : Option Nat → List TimerEntry
  | none => timers
  | some d => timers ++ [⟨intentId, sourceChain, destinationChain, d⟩]

/-- One engine step: dispatch an event to its handler. -/
def engineStep (st : EngineState) (e : EngineEvent) : EngineState :=
  match e with
  | .intentSubmitted intentId user intentType isExecuted d =>
    { st with store := (processLensChainIntent st.store intentId user intentType isExecuted d).1 }
  | .crossChainInitiated intentId sourceChain destinationChain poll =>
    let r := monitorCrossChainOperation st.store intentId sourceChain destinationChain poll
    { store := r.1
      timers := appendTimer st.timers intentId sourceChain destinationChain r.2 }
  | .timerFired idx poll =>
    match st.timers.get? idx with
    | none => st
    | some t =>
      let r := monitorCrossChainOperation st.store t.intentId t.sourceChain t.destinationChain poll
      { store := r.1
        timers := appendTimer (st.timers.eraseIdx idx) t.intentId t.sourceChain
          t.destinationChain r.2 }
  | .winningTicketDetected _ _ _ => st

/-- Run the engine over a sequence of asynchronous stimuli. -/
def engineRun (st : EngineState) (evs : List EngineEvent) : EngineState :=
  evs.foldl engineStep st

/-- Number of rows of the `intents` table holding a given blockchain
`intentId`. -/
def Store.countIntentRows (s : Store) (intentId : String) : Nat :=
  s.intents.countP (fun r => decide (r.intentId = intentId))

/-- Number of non-FAILED BRIDGE transactions referencing the intent with
surrogate key `pk`. -/
def Store.countActiveBridgeTx (s : Store) (pk : Nat) : Nat :=
  s.transactions.countP
    (fun t => decide (t.intentId = pk ∧ t.type = .BRIDGE ∧ t.status ≠ .FAILED))

/-- Number of outstanding poll timers for a given `intentId`. -/
def EngineState.countTimersFor (st : EngineState) (intentId : String) : Nat :=
  st.timers.countP (fun t => decide (t.intentId = intentId))

/-- A status is terminal exactly when it is COMPLETED or FAILED. -/
def IntentStatus.isTerminal : IntentStatus → Bool
  | .COMPLETED => true
  | .FAILED => true
  | _ => false

/-- The status-string validation of the controller's `updateIntent`
(`part_005` line 169): membership in the four Sequelize enum values. -/
def parseStatus (status : String) : Option IntentStatus :=
  if status = "PENDING" then some .PENDING
  else if status = "EXECUTING" then some .EXECUTING
  else if status = "COMPLETED" then some .COMPLETED
  else if status = "FAILED" then some .FAILED
  else none

/-- HTTP-visible outcome of the controller's `updateIntent`. -/
inductive UpdateIntentResult where
  /-- 200 with the updated record. -/
  | ok (intentId : String) (status : IntentStatus)
  /-- 400 `Invalid status`. -/
  | invalidStatus
  /-- 404 `Intent not found`. -/
  | intentNotFound
deriving DecidableEq, Repr

/-- The privileged `updateIntent` controller (`src/unnamed/part_005` lines
164-193): validate the status string, look the intent up by `intentId`,
then `intent.update({ status })` unconditionally — there is no check of the
current (possibly terminal) status. -/
def updateIntent (s : Store) (intentId : String) (status : String) :
    Store × UpdateIntentResult :=
  match parseStatus status with
  | none => (s, .invalidStatus)
  | some st =>
    match s.findIntentById intentId with
    | none => (s, .intentNotFound)
    | some intent =>
      (s.updateIntentStatus intent.id st, .ok intentId st)

/-- The process environment variables consulted at startup. -/
structure Env where
  PRIVATE_KEY : Option String
  SHARED_SECRET : Option String
  ENVIRONMENT : Option String
  LENS_MAINNET_RPC_URL : Option String
  LENS_TESTNET_RPC_URL : Option String
  LENS_RPC_URL : Option String
  BASE_RPC_URL : Option String
  DATABASE_URL : Option String
deriving DecidableEq, Repr

/-- The values `src/config.js` exports when module evaluation succeeds. -/
structure AppConfig where
  privateKey : String
  sharedSecret : String
  environment : String
  lensMainnetRpcUrl : String
  lensTestnetRpcUrl : String
deriving DecidableEq, Repr

/-- `src/config.js` (lines 1-14): `process.env.X ?? never("X env variable is
required")` for PRIVATE_KEY, SHARED_SECRET and ENVIRONMENT — `never` throws,
so a missing value aborts module evaluation (modelled as `.error`).  The RPC
URLs instead fall back to hard-coded defaults via `||`. -/
def loadConfig (env : Env) : Except String AppConfig :=
  match env.PRIVATE_KEY with
  | none => .error "PRIVATE_KEY env variable is required"
  | some pk =>
    match env.SHARED_SECRET with
    | none => .error "SHARED_SECRET env variable is required"
    | some secret =>
      match env.ENVIRONMENT with
      | none => .error "ENVIRONMENT env variable is required"
      | some environment =>
        .ok { privateKey := pk
              sharedSecret := secret
              environment := environment
              lensMainnetRpcUrl := env.LENS_MAINNET_RPC_URL.getD "https://rpc.lens.xyz"
              lensTestnetRpcUrl := env.LENS_TESTNET_RPC_URL.getD "https://rpc.testnet.lens.xyz" }

/-- The processor config of `src/contracts/intent/OffChainProcessor.js`
(lines 284-298): every entry is `process.env.X || <hard-coded default>` —
nothing is required, missing values silently fall back. -/
structure ProcessorConfig where
  lensRpcUrl : String
  baseRpcUrl : String
  privateKey : String
deriving DecidableEq, Repr

def processorConfig (env : Env) : ProcessorConfig :=
  { lensRpcUrl := env.LENS_RPC_URL.getD "https://rpc.lens.xyz"
    baseRpcUrl := env.BASE_RPC_URL.getD "https://mainnet.base.org"
    privateKey := env.PRIVATE_KEY.getD "0xYourPrivateKeyHere" }

/-- `src/database/config.js` (production entry): `url: process.env.DATABASE_URL`
with no presence check of any kind — an absent connection string is passed
through as-is. -/
def databaseUrlConfig (env : Env) : Option String :=
  env.DATABASE_URL

/-- Whether module evaluation of `src/config.js` completes (the process gets
to start) for a given environment. -/
def startupSucceeds (env : Env) : Bool :=
  match loadConfig env with
  | .ok _ => true
  | .error _ => false

/-! ### Concrete fixtures used by counterexamples and witnesses -/

/-- An empty store, as after `sequelize.sync()` on a fresh database. -/
def emptyStore : Store :=
  { intents := [], transactions := [], nextIntentPk := 1, nextTxPk := 1 }

/-- A persisted cross-chain intent that has reached EXECUTING. -/
def executingIntentRow : IntentRow :=
  { id := 1
    intentId := "0xabc"
    user := "0xuser"
    intentType := 2
    syndicateAddress := "0xsyn"
    amount := "100"
    tokenAddress := "0xtok"
    sourceChainId := 37111
    destinationChainId := 8453
    useOptimalRoute := true
    maxFeePercentage := 100
    deadline := "1700000000"
    status := .EXECUTING
    metadata := .engineMeta none none }

/-- A store holding exactly the one EXECUTING intent above. -/
def oneIntentStore : Store :=
  { intents := [executingIntentRow], transactions := [], nextIntentPk := 2, nextTxPk := 1 }

/-- A persisted intent that has reached the terminal status COMPLETED. -/
def completedIntentRow : IntentRow :=
  { id := 1
    intentId := "0xcc"
    user := "0xuser"
    intentType := 1
    syndicateAddress := "0xsyn"
    amount := "5"
    tokenAddress := "0xtok"
    sourceChainId := 232
    destinationChainId := 232
    useOptimalRoute := true
    maxFeePercentage := 0
    deadline := "1700000000"
    status := .COMPLETED
    metadata := .clientMeta [] }

/-- A store holding exactly the one COMPLETED intent above. -/
def completedIntentStore : Store :=
  { intents := [completedIntentRow], transactions := [], nextIntentPk := 2, nextTxPk := 1 }

/-- On-chain details of a cross-chain intent (Lens testnet to Base). -/
def crossChainDetails : IntentDetails :=
  { syndicateAddress := "0xsyn"
    amount := 100
    tokenAddress := "0xtok"
    sourceChain := 37111
    destinationChain := 8453
    useOptimalRoute := true
    maxFeePercentage := 100
    deadline := 1700000000
    gasPrice := none
    encodedData := none }

/-- On-chain details of a same-chain intent (both sides Lens mainnet). -/
def sameChainDetails : IntentDetails :=
  { syndicateAddress := "0xsyn"
    amount := 7
    tokenAddress := "0xtok"
    sourceChain := 232
    destinationChain := 232
    useOptimalRoute := true
    maxFeePercentage := 0
    deadline := 1700000000
    gasPrice := none
    encodedData := none }

/-- Create-fields carrying the spec's 100-tokens-at-18-decimals example
amount as a decimal string. -/
def bigAmountFields : IntentFields :=
  { intentId := "0xbig"
    user := "0xuser"
    intentType := 1
    syndicateAddress := "0xsyn"
    amount := "100000000000000000000"
    tokenAddress := "0xtok"
    sourceChainId := 232
    destinationChainId := 232
    useOptimalRoute := true
    maxFeePercentage := 0
    deadline := "1700000000"
    status := .PENDING
    metadata := .clientMeta [] }

/-- The row `db.Intent.create` materializes from `bigAmountFields` on the
empty store. -/
def bigAmountRow : IntentRow := bigAmountFields.toRow 1

/-- The store after inserting `bigAmountFields` into the empty store. -/
def bigAmountStore : Store := emptyStore.appendIntent bigAmountFields

/-- An environment supplying the three values `src/config.js` insists on but
with every RPC endpoint and the database connection string absent. -/
def rpcMissingEnv : Env :=
  { PRIVATE_KEY := some "0xf00d"
    SHARED_SECRET := some "longsharedsecret"
    ENVIRONMENT := some "testnet"
    LENS_MAINNET_RPC_URL := none
    LENS_TESTNET_RPC_URL := none
    LENS_RPC_URL := none
    BASE_RPC_URL := none
    DATABASE_URL := none }

/-! ### General lemmas about the store operations -/

theorem findIntentById_eq_none (s : Store) (intentId : String) :
    s.findIntentById intentId = none ↔ ∀ r ∈ s.intents, r.intentId ≠ intentId := by
  simp [Store.findIntentById, List.find?_eq_none]

theorem findIntentById_mem {s : Store} {intentId : String} {row : IntentRow}
    (h : s.findIntentById intentId = some row) : row ∈ s.intents :=
  List.mem_of_find?_eq_some h

theorem findIntentById_intentId {s : Store} {intentId : String} {row : IntentRow}
    (h : s.findIntentById intentId = some row) : row.intentId = intentId := by
  have := List.find?_some h
  simpa using this

theorem createIntent_found_eq (s : Store) (f : IntentFields) (row : IntentRow)
    (h : s.findIntentById f.intentId = some row) : s.createIntent f = none := by
  unfold Store.createIntent
  rw [h]

theorem createIntent_notFound_eq (s : Store) (f : IntentFields)
    (h : s.findIntentById f.intentId = none) :
    s.createIntent f = some (s.appendIntent f, f.toRow s.nextIntentPk) := by
  unfold Store.createIntent
  rw [h]

theorem findIntentById_appendIntent_self (s : Store) (f : IntentFields)
    (h : s.findIntentById f.intentId = none) :
    (s.appendIntent f).findIntentById f.intentId = some (f.toRow s.nextIntentPk) := by
  unfold Store.appendIntent Store.findIntentById
  rw [List.find?_append]
  unfold Store.findIntentById at h
  rw [h]
  simp [IntentFields.toRow]

theorem countIntentRows_updateIntentStatus (s : Store) (pk : Nat) (st : IntentStatus)
    (intentId : String) :
    (s.updateIntentStatus pk st).countIntentRows intentId = s.countIntentRows intentId := by
  unfold Store.countIntentRows Store.updateIntentStatus
  rw [List.countP_map]
  apply List.countP_congr
  intro a _
  by_cases hcase : a.id = pk <;> simp [hcase]

theorem countIntentRows_appendIntent (s : Store) (f : IntentFields) :
    (s.appendIntent f).countIntentRows f.intentId = s.countIntentRows f.intentId + 1 := by
  unfold Store.appendIntent Store.countIntentRows
  rw [List.countP_append]
  simp [IntentFields.toRow]

theorem countIntentRows_eq_zero (s : Store) (intentId : String)
    (h : s.findIntentById intentId = none) : s.countIntentRows intentId = 0 := by
  unfold Store.countIntentRows
  rw [List.countP_eq_zero]
  intro a ha
  have := (findIntentById_eq_none s intentId).mp h a ha
  simpa using this

/-- Normal form of a first (fresh) `IntentSubmitted` processing. -/
theorem process_fresh_eq (s : Store) (intentId user : String) (intentType : Nat)
    (d : IntentDetails) (h : s.findIntentById intentId = none) :
    processLensChainIntent s intentId user intentType false d =
      (if d.sourceChain ≠ d.destinationChain then
        (s.appendIntent (submittedIntentFields intentId user intentType d)
          ).updateIntentStatus s.nextIntentPk .EXECUTING
       else s.appendIntent (submittedIntentFields intentId user intentType d),
       .created) := by
  unfold processLensChainIntent
  rw [createIntent_notFound_eq s (submittedIntentFields intentId user intentType d) h]
  by_cases hcc : d.sourceChain ≠ d.destinationChain
  · simp only [if_pos hcc]
    rfl
  · simp only [if_neg hcc]
    rfl

/-- Normal form of a duplicate `IntentSubmitted` processing (row exists,
on-chain executed flag false): the unique-key violation aborts the handler
with the store untouched. -/
theorem process_duplicate_eq (s : Store) (intentId user : String) (intentType : Nat)
    (d : IntentDetails) (row : IntentRow) (h : s.findIntentById intentId = some row) :
    processLensChainIntent s intentId user intentType false d = (s, .duplicateError) := by
  unfold processLensChainIntent
  rw [createIntent_found_eq s (submittedIntentFields intentId user intentType d) row h]
  rfl

/-- The BRIDGE-transaction fields `monitorCrossChainOperation` passes to
`db.Transaction.create` for a found intent. -/
def bridgeTxFields (intentPk : Nat) (intentId : String) (sourceChain : Nat) :
    TransactionFields :=
  { intentId := intentPk
    chainId := sourceChain
    txHash := "0x" ++ intentId
    type := .BRIDGE
    status := .PENDING }

theorem monitor_notFound_eq (s : Store) (intentId : String)
    (sourceChain destinationChain : Nat) (poll : PollResult)
    (h : s.findIntentById intentId = none) :
    monitorCrossChainOperation s intentId sourceChain destinationChain poll = (s, none) := by
  unfold monitorCrossChainOperation
  rw [h]

theorem monitor_found_relayed_eq (s : Store) (intentId : String)
    (sourceChain destinationChain : Nat) (row : IntentRow)
    (h : s.findIntentById intentId = some row) :
    monitorCrossChainOperation s intentId sourceChain destinationChain (.ok "RELAYED") =
      ((((s.createTransaction (bridgeTxFields row.id intentId sourceChain)).1
          ).updateTransactionStatusWhere row.id .BRIDGE .CONFIRMED
          ).updateIntentStatus row.id .COMPLETED, none) := by
  unfold monitorCrossChainOperation
  rw [h]
  rfl

theorem monitor_found_notRelayed_eq (s : Store) (intentId : String)
    (sourceChain destinationChain : Nat) (row : IntentRow) (depositStatus : String)
    (h : s.findIntentById intentId = some row) (hne : depositStatus ≠ "RELAYED") :
    monitorCrossChainOperation s intentId sourceChain destinationChain (.ok depositStatus) =
      ((s.createTransaction (bridgeTxFields row.id intentId sourceChain)).1, some 60000) := by
  unfold monitorCrossChainOperation
  rw [h]
  simp [bridgeTxFields, hne]

theorem monitor_found_err_eq (s : Store) (intentId : String)
    (sourceChain destinationChain : Nat) (row : IntentRow)
    (h : s.findIntentById intentId = some row) :
    monitorCrossChainOperation s intentId sourceChain destinationChain PollResult.err =
      ((s.createTransaction (bridgeTxFields row.id intentId sourceChain)).1, some 300000) := by
  unfold monitorCrossChainOperation
  rw [h]
  rfl

/-! ### C4 — unknown intentId on `CrossChainOperationInitiated` -/

/-- C4: when a `CrossChainOperationInitiated` event names an `intentId` with
no Intent row, `monitorCrossChainOperation` logs and returns: no Transaction
row is created, no Intent row is fabricated, no poll is scheduled — the store
afterwards equals the store before, for every poll outcome. -/
theorem crossChain_unknownIntent_storeUnchanged (s : Store) (intentId : String)
    (sourceChain destinationChain : Nat) (poll : PollResult)
    (h : s.findIntentById intentId = none) :
    monitorCrossChainOperation s intentId sourceChain destinationChain poll = (s, none) := by
  unfold monitorCrossChainOperation
  rw [h]

/-- Witness for C4 at a concrete input: the empty store and an unknown id. -/
theorem crossChain_unknownIntent_storeUnchanged_witness :
    emptyStore.findIntentById "0xdead" = none ∧
    monitorCrossChainOperation emptyStore "0xdead" 37111 8453 (.ok "PENDING") =
      (emptyStore, none) :=
  ⟨rfl, crossChain_unknownIntent_storeUnchanged emptyStore "0xdead" 37111 8453 (.ok "PENDING") rfl⟩

/-! ### C5 — RELAYED finalizes the intent -/

/-- C5: when the bridge poll answers `"RELAYED"` for a tracked intent, every
BRIDGE transaction of that intent is marked CONFIRMED, every row of that
intent is marked COMPLETED (a terminal status), and no further poll is
scheduled. -/
theorem bridgePoll_relayed_finalizes (s : Store) (intentId : String)
    (sourceChain destinationChain : Nat) (row : IntentRow)
    (h : s.findIntentById intentId = some row) :
    (monitorCrossChainOperation s intentId sourceChain destinationChain (.ok "RELAYED")).2
      = none ∧
    (∀ r ∈ (monitorCrossChainOperation s intentId sourceChain destinationChain
        (.ok "RELAYED")).1.intents,
      r.id = row.id → r.status = .COMPLETED ∧ r.status.isTerminal = true) ∧
    (∀ t ∈ (monitorCrossChainOperation s intentId sourceChain destinationChain
        (.ok "RELAYED")).1.transactions,
      t.intentId = row.id → t.type = .BRIDGE → t.status = .CONFIRMED) := by
  rw [monitor_found_relayed_eq s intentId sourceChain destinationChain row h]
  refine ⟨rfl, ?_, ?_⟩
  · intro r hr hid
    simp only [Store.updateIntentStatus, Store.updateTransactionStatusWhere,
      Store.createTransaction, List.mem_map] at hr
    obtain ⟨a, _, rfl⟩ := hr
    by_cases hcase : a.id = row.id
    · simp [hcase, IntentStatus.isTerminal]
    · simp only [if_neg hcase] at hid ⊢
      exact absurd hid hcase
  · intro t ht hid hty
    simp only [Store.updateIntentStatus, Store.updateTransactionStatusWhere,
      Store.createTransaction, List.mem_map] at ht
    obtain ⟨a, _, rfl⟩ := ht
    by_cases hcase : a.intentId = row.id ∧ a.type = .BRIDGE
    · simp [hcase]
    · simp only [if_neg hcase] at hid hty ⊢
      exact absurd ⟨hid, hty⟩ hcase

/-- Witness for C5 at a concrete input. -/
theorem bridgePoll_relayed_finalizes_witness :
    oneIntentStore.findIntentById "0xabc" = some executingIntentRow ∧
    (monitorCrossChainOperation oneIntentStore "0xabc" 37111 8453 (.ok "RELAYED")).2 = none := by
  have h := bridgePoll_relayed_finalizes oneIntentStore "0xabc" 37111 8453
    executingIntentRow rfl
  exact ⟨rfl, h.1⟩

/-! ### C6 (amended) — per-resolution scheduling and delays -/

/-- C6 (amended): on each single bridge-poll resolution for a tracked intent
the engine either finalizes (status `"RELAYED"`: no reschedule) or schedules
exactly one future poll — after 60000 ms for any other answered status
(including `"PENDING"`), after 300000 ms when the status query itself throws. -/
theorem bridgePoll_resolution_schedules (s : Store) (intentId : String)
    (sourceChain destinationChain : Nat) (row : IntentRow) (depositStatus : String)
    (h : s.findIntentById intentId = some row) :
    (monitorCrossChainOperation s intentId sourceChain destinationChain
      (.ok "RELAYED")).2 = none ∧
    (depositStatus ≠ "RELAYED" →
      (monitorCrossChainOperation s intentId sourceChain destinationChain
        (.ok depositStatus)).2 = some 60000) ∧
    (monitorCrossChainOperation s intentId sourceChain destinationChain
      PollResult.err).2 = some 300000 := by
  refine ⟨?_, ?_, ?_⟩
  · rw [monitor_found_relayed_eq s intentId sourceChain destinationChain row h]
  · intro hne
    rw [monitor_found_notRelayed_eq s intentId sourceChain destinationChain row
      depositStatus h hne]
  · rw [monitor_found_err_eq s intentId sourceChain destinationChain row h]

/-- Witness for the amended C6 at a concrete input. -/
theorem bridgePoll_resolution_schedules_witness :
    (monitorCrossChainOperation oneIntentStore "0xabc" 37111 8453 (.ok "PENDING")).2
      = some 60000 ∧
    (monitorCrossChainOperation oneIntentStore "0xabc" 37111 8453 PollResult.err).2
      = some 300000 := by
  have h := bridgePoll_resolution_schedules oneIntentStore "0xabc" 37111 8453
    executingIntentRow "PENDING" rfl
  exact ⟨h.2.1 (by decide), h.2.2⟩

/-- C6 counterexample: the claim's "never more than one outstanding poll per
intent" fails — delivering `CrossChainOperationInitiated` twice for the same
intent (each poll answering `"PENDING"`) leaves two outstanding poll timers
for that one intent. -/
theorem duplicateDelivery_twoOutstandingPolls :
    (engineRun { store := oneIntentStore, timers := [] }
      [ .crossChainInitiated "0xabc" 37111 8453 (.ok "PENDING"),
        .crossChainInitiated "0xabc" 37111 8453 (.ok "PENDING") ]).countTimersFor "0xabc"
      = 2 := by
  rfl

/-! ### C3 — terminal statuses and the privileged `updateIntent` -/

/-- C3 counterexample: the privileged `updateIntent` endpoint happily mutates
a COMPLETED intent — called with `"PENDING"` on a store whose only intent is
COMPLETED, it answers 200 OK and the stored status becomes PENDING.  Terminal
statuses are not immutable. -/
theorem updateIntent_mutatesCompleted :
    (updateIntent completedIntentStore "0xcc" "PENDING").2 =
      UpdateIntentResult.ok "0xcc" .PENDING ∧
    ((updateIntent completedIntentStore "0xcc" "PENDING").1.findIntentById "0xcc").map
      (fun r => r.status) = some IntentStatus.PENDING := by
  exact ⟨rfl, rfl⟩

/-- C3 (amended): `updateIntent` rejects only an invalid status string (400)
or an unknown `intentId` (404).  For an existing intent it never checks the
current status: even when that status is terminal (COMPLETED or FAILED) the
call succeeds and overwrites it with any of the four enum values. -/
theorem updateIntent_noTerminalGuard (s : Store) (intentId statusStr : String)
    (st : IntentStatus) (row : IntentRow)
    (hp : parseStatus statusStr = some st)
    (hf : s.findIntentById intentId = some row)
    (hterm : row.status.isTerminal = true) :
    (updateIntent s intentId statusStr).2 = UpdateIntentResult.ok intentId st ∧
    ∀ r ∈ (updateIntent s intentId statusStr).1.intents, r.id = row.id → r.status = st := by
  unfold updateIntent
  rw [hp, hf]
  refine ⟨rfl, ?_⟩
  intro r hr hid
  simp only [Store.updateIntentStatus, List.mem_map] at hr
  obtain ⟨a, _, rfl⟩ := hr
  by_cases hcase : a.id = row.id
  · simp [hcase]
  · simp only [if_neg hcase] at hid ⊢
    exact absurd hid hcase

/-- Witness for the amended C3 at a concrete input. -/
theorem updateIntent_noTerminalGuard_witness :
    parseStatus "EXECUTING" = some IntentStatus.EXECUTING ∧
    completedIntentStore.findIntentById "0xcc" = some completedIntentRow ∧
    completedIntentRow.status.isTerminal = true ∧
    (updateIntent completedIntentStore "0xcc" "EXECUTING").2 =
      UpdateIntentResult.ok "0xcc" .EXECUTING := by
  have h := updateIntent_noTerminalGuard completedIntentStore "0xcc" "EXECUTING"
    IntentStatus.EXECUTING completedIntentRow rfl rfl rfl
  exact ⟨rfl, rfl, rfl, h.1⟩

/-! ### C9 — required configuration at startup -/

/-- C9 counterexample: with the signing key, shared secret and environment
present but every RPC endpoint and the database connection string absent,
startup does not fail — `src/config.js` evaluates fine, the processor config
silently substitutes its hard-coded default URLs, and the database config
passes the absent connection string through unchecked. -/
theorem missingRpcAndDb_startupProceeds :
    startupSucceeds rpcMissingEnv = true ∧
    (processorConfig rpcMissingEnv).lensRpcUrl = "https://rpc.lens.xyz" ∧
    (processorConfig rpcMissingEnv).baseRpcUrl = "https://mainnet.base.org" ∧
    databaseUrlConfig rpcMissingEnv = none := by
  exact ⟨rfl, rfl, rfl, rfl⟩

/-- C9 (amended): startup fails exactly when the signing key (PRIVATE_KEY),
SHARED_SECRET or ENVIRONMENT is absent.  Missing RPC endpoints do not stop
startup — hard-coded default URLs are substituted — and the store connection
string is passed through without any validation. -/
theorem startup_required_items (env : Env) :
    (startupSucceeds env = true ↔
      env.PRIVATE_KEY.isSome = true ∧ env.SHARED_SECRET.isSome = true ∧
        env.ENVIRONMENT.isSome = true) ∧
    (env.LENS_RPC_URL = none → (processorConfig env).lensRpcUrl = "https://rpc.lens.xyz") ∧
    (env.BASE_RPC_URL = none → (processorConfig env).baseRpcUrl = "https://mainnet.base.org") ∧
    databaseUrlConfig env = env.DATABASE_URL := by
  refine ⟨?_, ?_, ?_, rfl⟩
  · unfold startupSucceeds loadConfig
    cases env.PRIVATE_KEY <;> cases env.SHARED_SECRET <;> cases env.ENVIRONMENT <;> simp
  · intro h
    simp [processorConfig, h]
  · intro h
    simp [processorConfig, h]

/-- Witness for the amended C9 at a concrete input. -/
theorem startup_required_items_witness :
    (processorConfig rpcMissingEnv).lensRpcUrl = "https://rpc.lens.xyz" ∧
    startupSucceeds rpcMissingEnv = true := by
  have h := startup_required_items rpcMissingEnv
  exact ⟨h.2.1 rfl, h.1.mpr ⟨rfl, rfl, rfl⟩⟩

/-! ### C2 — idempotency of the `IntentSubmitted` handler -/

/-- C2 counterexample: a duplicate `IntentSubmitted` delivery whose intent
row already has status EXECUTING is *not* "ignored without reprocessing":
when the on-chain `executedIntents` flag is false, the handler re-fetches the
details and attempts the insert, which aborts on the unique-`intentId`
constraint (`duplicateError`), rather than taking the early-return ignore
path (`ignoredExecuted`).  The store is nevertheless unchanged. -/
theorem duplicateSubmit_reprocessed_notIgnored :
    (processLensChainIntent oneIntentStore "0xabc" "0xuser" 2 false crossChainDetails).2 =
      SubmitOutcome.duplicateError ∧
    SubmitOutcome.duplicateError ≠ SubmitOutcome.ignoredExecuted ∧
    (processLensChainIntent oneIntentStore "0xabc" "0xuser" 2 false crossChainDetails).1 =
      oneIntentStore := by
  refine ⟨rfl, by decide, rfl⟩

/-- C2 (amended): the handler is idempotent at the level of store state.  For
a fresh `intentId`, the first delivery persists exactly one Intent row;
delivering the same event again — with any answer of the on-chain executed
flag and any re-fetched details — leaves the store exactly as it was and does
not create a row.  (When the flag is false, the no-op comes from the
unique-key violation aborting the handler, not from a status-based ignore.) -/
theorem intentSubmitted_storeIdempotent (s : Store) (intentId user : String)
    (intentType : Nat) (d d2 : IntentDetails) (isExecuted2 : Bool)
    (h : s.findIntentById intentId = none) :
    ((processLensChainIntent s intentId user intentType false d).1).countIntentRows intentId
      = 1 ∧
    (processLensChainIntent
        (processLensChainIntent s intentId user intentType false d).1
        intentId user intentType isExecuted2 d2).1 =
      (processLensChainIntent s intentId user intentType false d).1 ∧
    (processLensChainIntent
        (processLensChainIntent s intentId user intentType false d).1
        intentId user intentType isExecuted2 d2).2 ≠ SubmitOutcome.created := by
  have hproj : (submittedIntentFields intentId user intentType d).intentId = intentId := rfl
  rw [process_fresh_eq s intentId user intentType d h]
  have hcount1 :
      (s.appendIntent (submittedIntentFields intentId user intentType d)
        ).countIntentRows intentId = 1 := by
    have := countIntentRows_appendIntent s (submittedIntentFields intentId user intentType d)
    rw [hproj] at this
    rw [this, countIntentRows_eq_zero s intentId h]
  have hfound : ∀ s1 : Store, s1.countIntentRows intentId = 1 →
      ∃ row2, s1.findIntentById intentId = some row2 := by
    intro s1 hc
    cases hf : s1.findIntentById intentId with
    | some row2 => exact ⟨row2, rfl⟩
    | none =>
      rw [countIntentRows_eq_zero s1 intentId hf] at hc
      exact absurd hc (by decide)
  have main : ∀ s1 : Store, s1.countIntentRows intentId = 1 →
      s1.countIntentRows intentId = 1 ∧
      (processLensChainIntent s1 intentId user intentType isExecuted2 d2).1 = s1 ∧
      (processLensChainIntent s1 intentId user intentType isExecuted2 d2).2 ≠
        SubmitOutcome.created := by
    intro s1 hc
    obtain ⟨row2, hf⟩ := hfound s1 hc
    cases isExecuted2 with
    | true => exact ⟨hc, rfl, by simp [processLensChainIntent]⟩
    | false =>
      rw [process_duplicate_eq s1 intentId user intentType d2 row2 hf]
      exact ⟨hc, rfl, by simp⟩
  by_cases hcc : d.sourceChain ≠ d.destinationChain
  · simp only [if_pos hcc]
    exact main _ (by rw [countIntentRows_updateIntentStatus]; exact hcount1)
  · simp only [if_neg hcc]
    exact main _ hcount1

/-- Witness for the amended C2 at a concrete input. -/
theorem intentSubmitted_storeIdempotent_witness :
    emptyStore.findIntentById "0xnew" = none ∧
    ((processLensChainIntent emptyStore "0xnew" "0xuser" 1 false
        crossChainDetails).1).countIntentRows "0xnew" = 1 := by
  have h := intentSubmitted_storeIdempotent emptyStore "0xnew" "0xuser" 1
    crossChainDetails crossChainDetails true rfl
  exact ⟨rfl, h.1⟩

/-! ### C8 — decimal-string amount round-trip -/

/-- C8: amount persistence is a lossless round-trip.  Whatever decimal string
is supplied to `db.Intent.create` is stored verbatim (`DataTypes.STRING`) and
`findOne` returns the row holding exactly that string; the engine likewise
persists the on-chain integer as its decimal string via `.toString()`.
`amount`, `gasUsed` and `gasFee` are `String`-typed columns throughout — no
floating-point or fixed-width-integer representation exists to coerce to. -/
theorem amount_roundTrip (s : Store) (f : IntentFields) (s1 : Store) (row : IntentRow)
    (h : s.createIntent f = some (s1, row)) :
    row.amount = f.amount ∧
    s1.findIntentById f.intentId = some row ∧
    (∀ (intentId user : String) (intentType : Nat) (d : IntentDetails),
      (submittedIntentFields intentId user intentType d).amount = toString d.amount) := by
  unfold Store.createIntent at h
  cases hf : s.findIntentById f.intentId with
  | some r => rw [hf] at h; exact absurd h (by simp)
  | none =>
    rw [hf] at h
    simp only [Option.some.injEq, Prod.mk.injEq] at h
    obtain ⟨hs1, hrow⟩ := h
    subst hs1
    subst hrow
    refine ⟨rfl, findIntentById_appendIntent_self s f hf, ?_⟩
    intro intentId user intentType d
    rfl

/-- Witness for C8: the spec's own 100-tokens-at-18-decimals example
round-trips verbatim through the store. -/
theorem amount_roundTrip_witness :
    (emptyStore.createIntent bigAmountFields).isSome = true ∧
    bigAmountRow.amount = "100000000000000000000" ∧
    bigAmountStore.findIntentById "0xbig" = some bigAmountRow := by
  have h := amount_roundTrip emptyStore bigAmountFields bigAmountStore bigAmountRow rfl
  exact ⟨rfl, h.1, h.2.1⟩

/-! ### Store invariants preserved by every engine step -/

/-- All intent surrogate keys are below the table's auto-increment counter. -/
def Store.intentPksFresh (s : Store) : Prop :=
  ∀ r ∈ s.intents, r.id < s.nextIntentPk

/-- No two intent rows share a surrogate key. -/
def Store.intentPksNodup (s : Store) : Prop :=
  (s.intents.map (fun r => r.id)).Nodup

/-- Every BRIDGE transaction references an existing intent row and carries
the placeholder hash `"0x" ++` that row's blockchain `intentId`. -/
def Store.bridgeTxLinked (s : Store) : Prop :=
  ∀ t ∈ s.transactions, t.type = .BRIDGE →
    ∃ r ∈ s.intents, r.id = t.intentId ∧ t.txHash = "0x" ++ r.intentId

/-- Combined store well-formedness used for the BRIDGE-row invariants. -/
def Store.bridgeWf (s : Store) : Prop :=
  s.intentPksFresh ∧ s.intentPksNodup ∧ s.bridgeTxLinked

theorem updStatusRow_id (pk : Nat) (st : IntentStatus) (r : IntentRow) :
    (if r.id = pk then { r with status := st } else r).id = r.id := by
  by_cases h : r.id = pk <;> simp [h]

theorem updStatusRow_intentId (pk : Nat) (st : IntentStatus) (r : IntentRow) :
    (if r.id = pk then { r with status := st } else r).intentId = r.intentId := by
  by_cases h : r.id = pk <;> simp [h]

theorem intentPksFresh_updateIntentStatus (s : Store) (pk : Nat) (st : IntentStatus)
    (h : s.intentPksFresh) : (s.updateIntentStatus pk st).intentPksFresh := by
  intro r hr
  simp only [Store.updateIntentStatus, List.mem_map] at hr
  obtain ⟨a, ha, rfl⟩ := hr
  rw [updStatusRow_id]
  exact h a ha

theorem intentPksNodup_updateIntentStatus (s : Store) (pk : Nat) (st : IntentStatus)
    (h : s.intentPksNodup) : (s.updateIntentStatus pk st).intentPksNodup := by
  unfold Store.intentPksNodup Store.updateIntentStatus at *
  simp only [List.map_map]
  have heq : ((fun r : IntentRow => r.id) ∘
      (fun r : IntentRow => if r.id = pk then { r with status := st } else r)) =
      fun r : IntentRow => r.id := by
    funext r
    exact updStatusRow_id pk st r
  rw [heq]
  exact h

theorem bridgeTxLinked_updateIntentStatus (s : Store) (pk : Nat) (st : IntentStatus)
    (h : s.bridgeTxLinked) : (s.updateIntentStatus pk st).bridgeTxLinked := by
  intro t ht hty
  obtain ⟨r, hr, hrid, hhash⟩ := h t ht hty
  refine ⟨if r.id = pk then { r with status := st } else r, ?_, ?_, ?_⟩
  · simp only [Store.updateIntentStatus, List.mem_map]
    exact ⟨r, hr, rfl⟩
  · rw [updStatusRow_id]
    exact hrid
  · rw [updStatusRow_intentId]
    exact hhash

theorem intentPksFresh_appendIntent (s : Store) (f : IntentFields)
    (h : s.intentPksFresh) : (s.appendIntent f).intentPksFresh := by
  intro r hr
  simp only [Store.appendIntent, List.mem_append, List.mem_singleton] at hr
  cases hr with
  | inl hold => exact Nat.lt_succ_of_lt (h r hold)
  | inr hnew => rw [hnew]; exact Nat.lt_succ_self _

theorem intentPksNodup_appendIntent (s : Store) (f : IntentFields)
    (hpk : s.intentPksFresh) (h : s.intentPksNodup) :
    (s.appendIntent f).intentPksNodup := by
  unfold Store.intentPksNodup Store.appendIntent at *
  rw [List.map_append, List.nodup_append]
  refine ⟨h, List.nodup_singleton _, ?_⟩
  intro x hx hx'
  simp only [List.mem_map] at hx
  obtain ⟨a, ha, rfl⟩ := hx
  simp only [List.map_cons, List.map_nil, List.mem_singleton, IntentFields.toRow] at hx'
  exact absurd hx' (Nat.ne_of_lt (hpk a ha))

theorem bridgeTxLinked_appendIntent (s : Store) (f : IntentFields)
    (h : s.bridgeTxLinked) : (s.appendIntent f).bridgeTxLinked := by
  intro t ht hty
  obtain ⟨r, hr, hrid, hhash⟩ := h t ht hty
  exact ⟨r, List.mem_append_left _ hr, hrid, hhash⟩

theorem updTxRow_keeps (pk : Nat) (ty : TxType) (st : TxStatus) (t : TransactionRow) :
    (if t.intentId = pk ∧ t.type = ty then { t with status := st } else t).intentId = t.intentId ∧
    (if t.intentId = pk ∧ t.type = ty then { t with status := st } else t).type = t.type ∧
    (if t.intentId = pk ∧ t.type = ty then { t with status := st } else t).txHash = t.txHash := by
  by_cases h : t.intentId = pk ∧ t.type = ty <;> simp [h]

theorem bridgeTxLinked_updateTxWhere (s : Store) (pk : Nat) (ty : TxType) (st : TxStatus)
    (h : s.bridgeTxLinked) : (s.updateTransactionStatusWhere pk ty st).bridgeTxLinked := by
  intro t ht hty
  simp only [Store.updateTransactionStatusWhere, List.mem_map] at ht
  obtain ⟨a, ha, rfl⟩ := ht
  obtain ⟨hiid, hty', hhash'⟩ := updTxRow_keeps pk ty st a
  rw [hty'] at hty
  obtain ⟨r, hr, hrid, hhash⟩ := h a ha hty
  refine ⟨r, hr, ?_, ?_⟩
  · rw [hiid]; exact hrid
  · rw [hhash']; exact hhash

theorem bridgeTxLinked_createBridgeTx (s : Store) (intentId : String)
    (sourceChain : Nat) (row : IntentRow)
    (hf : s.findIntentById intentId = some row) (h : s.bridgeTxLinked) :
    (s.createTransaction (bridgeTxFields row.id intentId sourceChain)).1.bridgeTxLinked := by
  intro t ht hty
  simp only [Store.createTransaction, List.mem_append, List.mem_singleton] at ht
  cases ht with
  | inl hold =>
    obtain ⟨r, hr, hrid, hhash⟩ := h t hold hty
    exact ⟨r, hr, hrid, hhash⟩
  | inr hnew =>
    subst hnew
    refine ⟨row, findIntentById_mem hf, rfl, ?_⟩
    rw [findIntentById_intentId hf]
    rfl

/-- `createTransaction` leaves the `intents` table and its counter alone. -/
theorem createTransaction_intents (s : Store) (f : TransactionFields) :
    (s.createTransaction f).1.intents = s.intents ∧
    (s.createTransaction f).1.nextIntentPk = s.nextIntentPk :=
  ⟨rfl, rfl⟩

theorem intentPksFresh_createTransaction (s : Store) (f : TransactionFields)
    (h : s.intentPksFresh) : (s.createTransaction f).1.intentPksFresh := h

theorem intentPksNodup_createTransaction (s : Store) (f : TransactionFields)
    (h : s.intentPksNodup) : (s.createTransaction f).1.intentPksNodup := h

theorem intentPksFresh_updateTxWhere (s : Store) (pk : Nat) (ty : TxType) (st : TxStatus)
    (h : s.intentPksFresh) : (s.updateTransactionStatusWhere pk ty st).intentPksFresh := h

theorem intentPksNodup_updateTxWhere (s : Store) (pk : Nat) (ty : TxType) (st : TxStatus)
    (h : s.intentPksNodup) : (s.updateTransactionStatusWhere pk ty st).intentPksNodup := h

theorem bridgeWf_monitor (s : Store) (intentId : String)
    (sourceChain destinationChain : Nat) (poll : PollResult)
    (h : s.bridgeWf) :
    (monitorCrossChainOperation s intentId sourceChain destinationChain poll).1.bridgeWf := by
  obtain ⟨hpk, hnd, hlink⟩ := h
  cases hf : s.findIntentById intentId with
  | none =>
    rw [monitor_notFound_eq s intentId sourceChain destinationChain poll hf]
    exact ⟨hpk, hnd, hlink⟩
  | some row =>
    have hcreated := bridgeTxLinked_createBridgeTx s intentId sourceChain row hf hlink
    cases poll with
    | err =>
      rw [monitor_found_err_eq s intentId sourceChain destinationChain row hf]
      exact ⟨hpk, hnd, hcreated⟩
    | ok depositStatus =>
      by_cases hrel : depositStatus = "RELAYED"
      · subst hrel
        rw [monitor_found_relayed_eq s intentId sourceChain destinationChain row hf]
        refine ⟨?_, ?_, ?_⟩
        · exact intentPksFresh_updateIntentStatus _ _ _
            (intentPksFresh_updateTxWhere _ _ _ _ hpk)
        · exact intentPksNodup_updateIntentStatus _ _ _
            (intentPksNodup_updateTxWhere _ _ _ _ hnd)
        · exact bridgeTxLinked_updateIntentStatus _ _ _
            (bridgeTxLinked_updateTxWhere _ _ _ _ hcreated)
      · rw [monitor_found_notRelayed_eq s intentId sourceChain destinationChain row
          depositStatus hf hrel]
        exact ⟨hpk, hnd, hcreated⟩

theorem bridgeWf_process (s : Store) (intentId user : String) (intentType : Nat)
    (isExecuted : Bool) (d : IntentDetails) (h : s.bridgeWf) :
    (processLensChainIntent s intentId user intentType isExecuted d).1.bridgeWf := by
  obtain ⟨hpk, hnd, hlink⟩ := h
  cases isExecuted with
  | true => exact ⟨hpk, hnd, hlink⟩
  | false =>
    cases hf : s.findIntentById intentId with
    | some row =>
      rw [process_duplicate_eq s intentId user intentType d row hf]
      exact ⟨hpk, hnd, hlink⟩
    | none =>
      rw [process_fresh_eq s intentId user intentType d hf]
      have happ : (s.appendIntent (submittedIntentFields intentId user intentType d)).bridgeWf :=
        ⟨intentPksFresh_appendIntent _ _ hpk,
         intentPksNodup_appendIntent _ _ hpk hnd,
         bridgeTxLinked_appendIntent _ _ hlink⟩
      by_cases hcc : d.sourceChain ≠ d.destinationChain
      · simp only [if_pos hcc]
        obtain ⟨hpk', hnd', hlink'⟩ := happ
        exact ⟨intentPksFresh_updateIntentStatus _ _ _ hpk',
               intentPksNodup_updateIntentStatus _ _ _ hnd',
               bridgeTxLinked_updateIntentStatus _ _ _ hlink'⟩
      · simp only [if_neg hcc]
        exact happ

theorem bridgeWf_step (st : EngineState) (e : EngineEvent)
    (h : st.store.bridgeWf) : (engineStep st e).store.bridgeWf := by
  cases e with
  | intentSubmitted intentId user intentType isExecuted d =>
    exact bridgeWf_process st.store intentId user intentType isExecuted d h
  | crossChainInitiated intentId sourceChain destinationChain poll =>
    exact bridgeWf_monitor st.store intentId sourceChain destinationChain poll h
  | timerFired idx poll =>
    cases hg : st.timers.get? idx with
    | none =>
      simp only [engineStep, hg]
      exact h
    | some t =>
      simp only [engineStep, hg]
      exact bridgeWf_monitor st.store t.intentId t.sourceChain t.destinationChain poll h
  | winningTicketDetected ticketId amount syndicate => exact h

theorem bridgeWf_run (st : EngineState) (evs : List EngineEvent)
    (h : st.store.bridgeWf) : (engineRun st evs).store.bridgeWf := by
  induction evs generalizing st with
  | nil => exact h
  | cons e rest ih => exact ih (engineStep st e) (bridgeWf_step st e h)

/-- Any two BRIDGE rows of one intent in a well-formed store share the same
placeholder transaction hash. -/
theorem bridgeWf_sharedHash (s : Store) (h : s.bridgeWf) :
    ∀ t1 ∈ s.transactions, ∀ t2 ∈ s.transactions,
      t1.type = .BRIDGE → t2.type = .BRIDGE → t1.intentId = t2.intentId →
        t1.txHash = t2.txHash := by
  obtain ⟨-, hnd, hlink⟩ := h
  intro t1 h1 t2 h2 hty1 hty2 heq
  obtain ⟨r1, hr1, hid1, hh1⟩ := hlink t1 h1 hty1
  obtain ⟨r2, hr2, hid2, hh2⟩ := hlink t2 h2 hty2
  have hr12 : r1 = r2 := by
    apply List.inj_on_of_nodup_map hnd hr1 hr2
    rw [hid1, hid2, heq]
  rw [hh1, hh2, hr12]

/-! ### C7 machinery — a tracked intent never becomes EXECUTING again -/

/-- For the C7 trace argument: the store holds a row for this blockchain
`intentId`, surrogate keys are fresh, and no row of this `intentId` is
EXECUTING. -/
def trackedNonExecuting (intentId : String) (s : Store) : Prop :=
  s.intentPksFresh ∧ (∃ r ∈ s.intents, r.intentId = intentId) ∧
    ∀ r ∈ s.intents, r.intentId = intentId → r.status ≠ .EXECUTING

theorem trackedNonExecuting_updateIntentStatus (intentId : String) (s : Store)
    (pk : Nat) (st : IntentStatus) (hst : st ≠ .EXECUTING)
    (h : trackedNonExecuting intentId s) :
    trackedNonExecuting intentId (s.updateIntentStatus pk st) := by
  obtain ⟨hpk, ⟨w, hw, hwid⟩, hne⟩ := h
  refine ⟨intentPksFresh_updateIntentStatus s pk st hpk, ?_, ?_⟩
  · refine ⟨if w.id = pk then { w with status := st } else w, ?_, ?_⟩
    · simp only [Store.updateIntentStatus, List.mem_map]
      exact ⟨w, hw, rfl⟩
    · rw [updStatusRow_intentId]
      exact hwid
  · intro r hr hrid
    simp only [Store.updateIntentStatus, List.mem_map] at hr
    obtain ⟨a, ha, rfl⟩ := hr
    rw [updStatusRow_intentId] at hrid
    by_cases hcase : a.id = pk
    · simp only [if_pos hcase]
      exact hst
    · simp only [if_neg hcase]
      exact hne a ha hrid

theorem trackedNonExecuting_monitor (intentId : String) (s : Store) (id2 : String)
    (sourceChain destinationChain : Nat) (poll : PollResult)
    (h : trackedNonExecuting intentId s) :
    trackedNonExecuting intentId
      (monitorCrossChainOperation s id2 sourceChain destinationChain poll).1 := by
  cases hf : s.findIntentById id2 with
  | none =>
    rw [monitor_notFound_eq s id2 sourceChain destinationChain poll hf]
    exact h
  | some row =>
    have hcreate : trackedNonExecuting intentId
        (s.createTransaction (bridgeTxFields row.id id2 sourceChain)).1 := h
    cases poll with
    | err =>
      rw [monitor_found_err_eq s id2 sourceChain destinationChain row hf]
      exact hcreate
    | ok depositStatus =>
      by_cases hrel : depositStatus = "RELAYED"
      · subst hrel
        rw [monitor_found_relayed_eq s id2 sourceChain destinationChain row hf]
        exact trackedNonExecuting_updateIntentStatus intentId _ row.id .COMPLETED
          (by simp) (hcreate)
      · rw [monitor_found_notRelayed_eq s id2 sourceChain destinationChain row
          depositStatus hf hrel]
        exact hcreate

theorem trackedNonExecuting_process (intentId : String) (s : Store) (id2 user : String)
    (intentType : Nat) (isExecuted : Bool) (d : IntentDetails)
    (h : trackedNonExecuting intentId s) :
    trackedNonExecuting intentId
      (processLensChainIntent s id2 user intentType isExecuted d).1 := by
  obtain ⟨hpk, hex, hne⟩ := h
  cases isExecuted with
  | true => exact ⟨hpk, hex, hne⟩
  | false =>
    cases hf : s.findIntentById id2 with
    | some row =>
      rw [process_duplicate_eq s id2 user intentType d row hf]
      exact ⟨hpk, hex, hne⟩
    | none =>
      rw [process_fresh_eq s id2 user intentType d hf]
      have hid2 : id2 ≠ intentId := by
        obtain ⟨w, hw, hwid⟩ := hex
        intro hcon
        subst hcon
        exact (findIntentById_eq_none s id2).mp hf w hw hwid
      have happ : trackedNonExecuting intentId
          (s.appendIntent (submittedIntentFields id2 user intentType d)) := by
        refine ⟨intentPksFresh_appendIntent _ _ hpk, ?_, ?_⟩
        · obtain ⟨w, hw, hwid⟩ := hex
          exact ⟨w, List.mem_append_left _ hw, hwid⟩
        · intro r hr hrid
          simp only [Store.appendIntent, List.mem_append, List.mem_singleton] at hr
          cases hr with
          | inl hold => exact hne r hold hrid
          | inr hnew =>
            subst hnew
            exact absurd hrid hid2
      by_cases hcc : d.sourceChain ≠ d.destinationChain
      · simp only [if_pos hcc]
        obtain ⟨hpk', hex', hne'⟩ := happ
        refine ⟨intentPksFresh_updateIntentStatus _ _ _ hpk', ?_, ?_⟩
        · obtain ⟨w, hw, hwid⟩ := hex'
          refine ⟨if w.id = s.nextIntentPk then { w with status := .EXECUTING } else w, ?_, ?_⟩
          · simp only [Store.updateIntentStatus, List.mem_map]
            exact ⟨w, hw, rfl⟩
          · rw [updStatusRow_intentId]
            exact hwid
        · intro r hr hrid
          simp only [Store.updateIntentStatus, List.mem_map] at hr
          obtain ⟨a, ha, rfl⟩ := hr
          rw [updStatusRow_intentId] at hrid
          simp only [Store.appendIntent, List.mem_append, List.mem_singleton] at ha
          cases ha with
          | inl hold =>
            have hane : a.id ≠ s.nextIntentPk := Nat.ne_of_lt (hpk a hold)
            simp only [if_neg hane]
            exact hne a hold hrid
          | inr hnew =>
            subst hnew
            exact absurd hrid hid2
      · simp only [if_neg hcc]
        exact happ

theorem trackedNonExecuting_step (intentId : String) (st : EngineState) (e : EngineEvent)
    (h : trackedNonExecuting intentId st.store) :
    trackedNonExecuting intentId (engineStep st e).store := by
  cases e with
  | intentSubmitted id2 user intentType isExecuted d =>
    exact trackedNonExecuting_process intentId st.store id2 user intentType isExecuted d h
  | crossChainInitiated id2 sourceChain destinationChain poll =>
    exact trackedNonExecuting_monitor intentId st.store id2 sourceChain destinationChain poll h
  | timerFired idx poll =>
    cases hg : st.timers.get? idx with
    | none =>
      simp only [engineStep, hg]
      exact h
    | some t =>
      simp only [engineStep, hg]
      exact trackedNonExecuting_monitor intentId st.store t.intentId t.sourceChain
        t.destinationChain poll h
  | winningTicketDetected ticketId amount syndicate => exact h

theorem trackedNonExecuting_run (intentId : String) (st : EngineState)
    (evs : List EngineEvent) (h : trackedNonExecuting intentId st.store) :
    trackedNonExecuting intentId (engineRun st evs).store := by
  induction evs generalizing st with
  | nil => exact h
  | cons e rest ih => exact ih (engineStep st e) (trackedNonExecuting_step intentId st e h)

/-! ### C7 — the EXECUTING transition and chain topology -/

/-- C7: a fresh `IntentSubmitted` event is persisted with status PENDING
(the create call carries the literal PENDING).  When the fetched details
have `sourceChain ≠ destinationChain` every row of that `intentId` is
EXECUTING immediately after the handler; when `sourceChain =
destinationChain` every such row is still PENDING afterwards, and no
subsequent engine activity whatsoever (more event deliveries, poll timers)
ever puts a row of that `intentId` into EXECUTING. -/
theorem intentSubmitted_executing_policy (s : Store) (intentId user : String)
    (intentType : Nat) (d : IntentDetails)
    (hfresh : s.findIntentById intentId = none)
    (hpk : s.intentPksFresh) :
    ((processLensChainIntent s intentId user intentType false d).2 = .created) ∧
    ((submittedIntentFields intentId user intentType d).status = .PENDING) ∧
    (d.sourceChain ≠ d.destinationChain →
      ∀ r ∈ (processLensChainIntent s intentId user intentType false d).1.intents,
        r.intentId = intentId → r.status = .EXECUTING) ∧
    (d.sourceChain = d.destinationChain →
      (∀ r ∈ (processLensChainIntent s intentId user intentType false d).1.intents,
        r.intentId = intentId → r.status = .PENDING) ∧
      (∀ (timers : List TimerEntry) (evs : List EngineEvent),
        ∀ r ∈ (engineRun
            ⟨(processLensChainIntent s intentId user intentType false d).1, timers⟩
            evs).store.intents,
          r.intentId = intentId → r.status ≠ .EXECUTING)) := by
  have hnone := (findIntentById_eq_none s intentId).mp hfresh
  rw [process_fresh_eq s intentId user intentType d hfresh]
  refine ⟨rfl, rfl, ?_, ?_⟩
  · intro hcc r hr hrid
    simp only [if_pos hcc] at hr
    simp only [Store.updateIntentStatus, List.mem_map] at hr
    obtain ⟨a, ha, rfl⟩ := hr
    rw [updStatusRow_intentId] at hrid
    simp only [Store.appendIntent, List.mem_append, List.mem_singleton] at ha
    cases ha with
    | inl hold => exact absurd hrid (hnone a hold)
    | inr hnew =>
      subst hnew
      simp [IntentFields.toRow]
  · intro hcc
    have hif : (if d.sourceChain ≠ d.destinationChain then
        (s.appendIntent (submittedIntentFields intentId user intentType d)
          ).updateIntentStatus s.nextIntentPk .EXECUTING
       else s.appendIntent (submittedIntentFields intentId user intentType d)) =
        s.appendIntent (submittedIntentFields intentId user intentType d) :=
      if_neg (fun hne => hne hcc)
    rw [hif]
    constructor
    · intro r hr hrid
      simp only [Store.appendIntent, List.mem_append, List.mem_singleton] at hr
      cases hr with
      | inl hold => exact absurd hrid (hnone r hold)
      | inr hnew =>
        subst hnew
        rfl
    · intro timers evs r hr hrid
      have h0 : trackedNonExecuting intentId
          (s.appendIntent (submittedIntentFields intentId user intentType d)) := by
        refine ⟨intentPksFresh_appendIntent _ _ hpk, ?_, ?_⟩
        · exact ⟨(submittedIntentFields intentId user intentType d).toRow s.nextIntentPk,
            List.mem_append_right _ (List.mem_singleton_self _), rfl⟩
        · intro a ha haid
          simp only [Store.appendIntent, List.mem_append, List.mem_singleton] at ha
          cases ha with
          | inl hold => exact absurd haid (hnone a hold)
          | inr hnew =>
            subst hnew
            simp [IntentFields.toRow, submittedIntentFields]
      have hrun := trackedNonExecuting_run intentId
        ⟨s.appendIntent (submittedIntentFields intentId user intentType d), timers⟩ evs h0
      exact hrun.2.2 r hr hrid

/-- Witness for C7 at a concrete input: fresh same-chain submission on the
empty store, followed by a (spurious) cross-chain event and a winning-ticket
event. -/
theorem intentSubmitted_executing_policy_witness :
    emptyStore.findIntentById "0xnew2" = none ∧
    (processLensChainIntent emptyStore "0xnew2" "0xuser" 1 false sameChainDetails).2 =
      SubmitOutcome.created ∧
    (submittedIntentFields "0xnew2" "0xuser" 1 sameChainDetails).status =
      IntentStatus.PENDING := by
  have h := intentSubmitted_executing_policy emptyStore "0xnew2" "0xuser" 1
    sameChainDetails rfl (by intro r hr; exact absurd hr (List.not_mem_nil r))
  exact ⟨rfl, h.1, h.2.1⟩

/-! ### C10 — the placeholder BRIDGE transaction hash -/

/-- C10: every BRIDGE Transaction row created by the engine's
`CrossChainOperationInitiated` handler has `txHash` equal to `"0x" ++` the
event's `intentId` (a placeholder, not a real on-chain hash) and `chainId`
equal to the event's `sourceChain`; consequently, in every store the engine
can reach, any two BRIDGE rows of one intent share the same `txHash`. -/
theorem bridgeTx_placeholderHash (st : EngineState) (h : st.store.bridgeWf) :
    (∀ (intentId : String) (sourceChain destinationChain : Nat) (poll : PollResult)
        (row : IntentRow), st.store.findIntentById intentId = some row →
      ∃ t ∈ (monitorCrossChainOperation st.store intentId sourceChain destinationChain
          poll).1.transactions,
        t.txHash = "0x" ++ intentId ∧ t.chainId = sourceChain ∧ t.type = .BRIDGE) ∧
    (∀ evs : List EngineEvent, ∀ t1 ∈ (engineRun st evs).store.transactions,
      ∀ t2 ∈ (engineRun st evs).store.transactions,
        t1.type = .BRIDGE → t2.type = .BRIDGE → t1.intentId = t2.intentId →
          t1.txHash = t2.txHash) := by
  constructor
  · intro intentId sourceChain destinationChain poll row hf
    cases poll with
    | err =>
      rw [monitor_found_err_eq st.store intentId sourceChain destinationChain row hf]
      refine ⟨(bridgeTxFields row.id intentId sourceChain).toTxRow st.store.nextTxPk, ?_, rfl, rfl, rfl⟩
      exact List.mem_append_right _ (List.mem_singleton_self _)
    | ok depositStatus =>
      by_cases hrel : depositStatus = "RELAYED"
      · subst hrel
        rw [monitor_found_relayed_eq st.store intentId sourceChain destinationChain row hf]
        refine ⟨{ (bridgeTxFields row.id intentId sourceChain).toTxRow st.store.nextTxPk
            with status := .CONFIRMED }, ?_, rfl, rfl, rfl⟩
        simp only [Store.updateIntentStatus, Store.updateTransactionStatusWhere,
          List.mem_map]
        refine ⟨(bridgeTxFields row.id intentId sourceChain).toTxRow st.store.nextTxPk, ?_, ?_⟩
        · exact List.mem_append_right _ (List.mem_singleton_self _)
        · rw [if_pos ⟨rfl, rfl⟩]
      · rw [monitor_found_notRelayed_eq st.store intentId sourceChain destinationChain row
          depositStatus hf hrel]
        refine ⟨(bridgeTxFields row.id intentId sourceChain).toTxRow st.store.nextTxPk, ?_, rfl, rfl, rfl⟩
        exact List.mem_append_right _ (List.mem_singleton_self _)
  · intro evs
    exact bridgeWf_sharedHash _ (bridgeWf_run st evs h)

/-- Witness for C10 at a concrete input. -/
theorem bridgeTx_placeholderHash_witness :
    oneIntentStore.bridgeWf ∧
    ∃ t ∈ (monitorCrossChainOperation oneIntentStore "0xabc" 37111 8453
        (.ok "PENDING")).1.transactions,
      t.txHash = "0x" ++ "0xabc" ∧ t.chainId = 37111 ∧ t.type = .BRIDGE := by
  have hwf : oneIntentStore.bridgeWf := by
    refine ⟨?_, ?_, ?_⟩
    · unfold Store.intentPksFresh
      decide
    · unfold Store.intentPksNodup
      decide
    · unfold Store.bridgeTxLinked
      decide
  have h := bridgeTx_placeholderHash ⟨oneIntentStore, []⟩ hwf
  exact ⟨hwf, h.1 "0xabc" 37111 8453 (.ok "PENDING") executingIntentRow rfl⟩

/-! ### C1 — duplicate BRIDGE rows for one intent -/

/-- C1 (the code evaluated at the failing input): the claimed invariant "at
most one non-FAILED BRIDGE transaction per intent" is violated by the code
itself, even without duplicate deliveries.  One
`CrossChainOperationInitiated` delivery whose first poll resolves
not-yet-relayed, followed by the rescheduled 60 s timer firing (again
not-yet-relayed), leaves two PENDING BRIDGE rows for the intent, because
every invocation of `monitorCrossChainOperation` — including each retry —
re-runs the `db.Transaction.create`. -/
theorem pollRetry_duplicatesBridgeRows :
    (engineRun { store := oneIntentStore, timers := [] }
      [ .crossChainInitiated "0xabc" 37111 8453 (.ok "PENDING"),
        .timerFired 0 (.ok "PENDING") ]).store.countActiveBridgeTx 1 = 2 := by
  rfl

end Syndicate
